import Mathlib

/-!
Verification of the VC4C memory-operand classifier and control-flow loop
analysis against the natural-language specification.

The memory part is a shallow embedding of
`src/intermediate/MemoryInstruction.cpp`; the control-flow loop part models
the interfaces declared in `src/analysis/ControlFlowLoop.h` (whose
implementation file is not among the sources) from the specification.
-/

/-! ## Data model: address spaces, data types, values, locals -/

/-- OpenCL address spaces as used by the pointer types. -/
inductive AddressSpace where
  | generic
  | privateAS
  | globalAS
  | constantAS
  | localAS
deriving DecidableEq

/-- Data types as far as the classifier inspects them: scalars and structs
with an explicit physical width, arrays and pointers. -/
inductive DataType where
  | scalar (physicalWidth : Nat)
  | structType (physicalWidth : Nat)
  | array (size : Nat) (elem : DataType)
  | pointer (addrSpace : AddressSpace) (pointee : DataType)
deriving DecidableEq

/-- `DataType::getPointerType() != nullptr`. -/
def DataType.isPointerType : DataType → Bool
  | .pointer _ _ => true
  | _ => false

/-- `DataType::getArrayType() != nullptr`. -/
def DataType.isArrayType : DataType → Bool
  | .array _ _ => true
  | _ => false

/-- `DataType::getStructType() != nullptr`. -/
def DataType.isStructType : DataType → Bool
  | .structType _ => true
  | _ => false

/-- `DataType::getElementType()`: the pointed-to type of a pointer, the
element type of an array, the type itself otherwise. -/
def DataType.getElementType : DataType → DataType
  | .pointer _ p => p
  | .array _ e => e
  | t => t

/-- `DataType::getPhysicalWidth()`: width in bytes; pointers are 32-bit. -/
def DataType.getPhysicalWidth : DataType → Nat
  | .scalar w => w
  | .structType w => w
  | .array n e => n * e.getPhysicalWidth
  | .pointer _ _ => 4

/-- `DataType::toArrayType(n)`. -/
def DataType.toArrayType (t : DataType) (n : Nat) : DataType := .array n t

/-- Modelled from the spec: `periphery::VPM::getVPMStorageType` is not among
the sources; the spec's eligibility table works directly with the element
physical width (`elementPhysicalWidth * NUM_QPUS < scratchpadCapacity`), so
the VPM storage type is modelled as the element type itself. -/
def getVPMStorageType (t : DataType) : DataType := t

def TYPE_INT32 : DataType := .scalar 4

/-- A `Value`: either a literal constant or a reference to a local (by its
id), in both cases carrying a data type. -/
inductive Value where
  | lit (v : Nat) (type : DataType)
  | localRef (id : Nat) (type : DataType)
deriving DecidableEq

def Value.type : Value → DataType
  | .lit _ t => t
  | .localRef _ t => t

/-- `Value::checkLocal()`. -/
def Value.checkLocal : Value → Bool
  | .localRef _ _ => true
  | _ => false

/-- `Value::getLiteralValue()`. -/
def Value.getLiteralValue : Value → Option Nat
  | .lit v _ => some v
  | _ => none

/-- The constant `INT_ONE` (literal one of 32-bit integer type). -/
def INT_ONE : Value := .lit 1 TYPE_INT32

/-- The kind tag of a `Local`: variant over Parameter,
Global(constant flag), StackAllocation and ordinary locals. -/
inductive LocalKind where
  | parameter
  | globalKind (isConstant : Bool)
  | stackAllocation
  | ordinary
deriving DecidableEq

/-- A local as the classifier sees it: its kind, its type and the id of the
local returned by `getBase(true)` (the ultimate origin of a derived or
aliased local). -/
structure LocalInfo where
  kind : LocalKind
  type : DataType
  baseId : Nat
deriving DecidableEq

/-- Modelled from the spec: `Local::residesInMemory` is not among the
sources; per the spec's data model, Global and StackAllocation locals are
the memory-resident origins. -/
def residesInMemory : LocalKind → Bool
  | .globalKind _ => true
  | .stackAllocation => true
  | _ => false

/-- Operation codes as far as `isDerivedFromMemory` distinguishes them. -/
inductive OpCode where
  | add
  | sub
  | otherOp
deriving DecidableEq

/-- An instruction using (reading or writing) a local, with the shapes that
`isDerivedFromMemory` distinguishes on its writers: a move (with its source
value), a memory instruction, a binary ALU operation, anything else. -/
inductive UseInst where
  | move (src : Value)
  | memoryInst
  | operation (opc : OpCode) (arg0 arg1 : Value)
  | other
deriving DecidableEq

/-- The IR context a classification query runs in: per local id its info,
its list of writing instructions and its list of users (readers and
writers). -/
structure Program where
  info : Nat → LocalInfo
  writers : Nat → List UseInst
  users : Nat → List UseInst

/-! ## Memory operand classification (`MemoryInstruction.cpp`) -/

/-- `isDerivedFromMemory(const Local*)`: true when the base local resides in
memory or is a parameter, otherwise a conjunction over all writers of the
local: a move from a local recurses into that local, a memory-instruction
writer is skipped, an add/subtract with exactly one pointer-typed operand
that is a local is accepted, everything else disqualifies.  The `fuel`
argument bounds the recursion depth of the embedding (the C++ recursion is
unbounded; on the acyclic SSA def-use graphs it runs on, any fuel larger
than the longest move chain is enough). -/
def isDerivedFromMemory (P : Program) : Nat → Nat → Bool
  | 0, _ => false
  | fuel + 1, id =>
    let base := P.info (P.info id).baseId
    if residesInMemory base.kind || decide (base.kind = LocalKind.parameter) then
      true
    else
      (P.writers id).all fun user =>
        match user with
        | UseInst.move (Value.localRef srcId _) => isDerivedFromMemory P fuel srcId
        | UseInst.move _ => false
        | UseInst.memoryInst => true
        | UseInst.operation opc a0 a1 =>
          if opc ≠ OpCode.add ∧ opc ≠ OpCode.sub then false
          else if a0.checkLocal && a0.type.isPointerType && !a1.type.isPointerType then true
          else if a1.checkLocal && !a0.type.isPointerType && a1.type.isPointerType then true
          else false
        | UseInst.other => false

/-- `checkMemoryLocation(const Value&)`: the operand must be pointer-typed,
must be a local, and that local must be derived from memory. -/
def checkMemoryLocation (P : Program) (fuel : Nat) (val : Value) : Except String Unit :=
  if !val.type.isPointerType then
    .error "Operand needs to be a pointer"
  else
    match val with
    | .localRef id _ =>
      if isDerivedFromMemory P fuel id then .ok ()
      else .error "Operand needs to refer to a memory location or a parameter containing one"
    | _ => .error "Operand needs to refer to a memory location or a parameter containing one"

/-- `checkLocalValue(const Value&)`: a local value must not reside in memory
and must not be a pointer- or array-typed parameter. -/
def checkLocalValue (P : Program) (val : Value) : Except String Unit :=
  match val with
  | .localRef id _ =>
    let info := P.info id
    if residesInMemory info.kind ||
        (decide (info.kind = LocalKind.parameter) && (info.type.isPointerType || info.type.isArrayType)) then
      .error "Operand needs to be a local value (local, register)"
    else .ok ()
  | _ => .ok ()

/-- `checkSingleValue(const Value&)`: the operand must be the literal one. -/
def checkSingleValue (val : Value) : Except String Unit :=
  if val.getLiteralValue = some 1 then .ok ()
  else .error "Operand needs to the constant one"

/-- The four memory operation tags. -/
inductive MemoryOperation where
  | copy
  | fill
  | read
  | write
deriving DecidableEq

/-- A constructed memory instruction: operation tag, destination, source and
entry count. -/
structure MemoryInstruction where
  op : MemoryOperation
  dest : Value
  src : Value
  numEntries : Value
deriving DecidableEq

/-- The `MemoryInstruction` constructor: a non-one entry count is only
allowed for `COPY` and `FILL`. -/
def MemoryInstruction.make (op : MemoryOperation) (dest src numEntries : Value) :
    Except String MemoryInstruction :=
  if numEntries ≠ INT_ONE then
    if op ≠ MemoryOperation.copy ∧ op ≠ MemoryOperation.fill then
      .error "Can only use the entry count for copying or filling memory"
    else
      .ok { op := op, dest := dest, src := src, numEntries := numEntries }
  else
    .ok { op := op, dest := dest, src := src, numEntries := numEntries }

/-- `MemoryInstruction::isNormalized()`. -/
def MemoryInstruction.isNormalized (_ : MemoryInstruction) : Bool := false

/-- `MemoryInstruction::hasSideEffects()`. -/
def MemoryInstruction.hasSideEffects (_ : MemoryInstruction) : Bool := true

/-- The source condition at lines 170-172: the element type is a struct, or
an array whose element type is a struct. -/
def hasStructElement (t : DataType) : Bool :=
  t.getElementType.isStructType ||
    (match t.getElementType with
     | .array _ e => e.isStructType
     | _ => false)

/-- `canMoveIntoVPM(const Value&, bool)`: for a memory address, validate the
location and follow the origin table (structs and oversized elements never,
constant globals always, non-constant globals only with `__local` address
space, parameters never, stack allocations when all `numQPUs` copies fit);
for a local value, require every user to satisfy the (currently constantly
false) predicate. -/
def canMoveIntoVPM (numQPUs vpmSize : Nat) (P : Program) (fuel : Nat) (val : Value)
    (isMemoryAddress : Bool) : Except String Bool :=
  if isMemoryAddress then
    match checkMemoryLocation P fuel val with
    | .error e => .error e
    | .ok _ =>
      match val with
      | .localRef id _ =>
        let base := P.info (P.info id).baseId
        if hasStructElement base.type then
          .ok false
        else
          let inVPMWidth := (getVPMStorageType base.type.getElementType).getPhysicalWidth
          if inVPMWidth > vpmSize then
            .ok false
          else
            match base.kind with
            | .globalKind isConstant =>
              .ok (isConstant ||
                (match base.type with
                 | .pointer a _ => decide (a = AddressSpace.localAS)
                 | _ => false))
            | .parameter => .ok false
            | .stackAllocation => .ok (decide (inVPMWidth * numQPUs < vpmSize))
            | .ordinary => .ok false
      | _ => .error "Operand needs to refer to a memory location or a parameter containing one"
  else
    match val with
    | .localRef id _ => .ok ((P.users id).all fun _ => false)
    | _ => .ok false

/-- `true` when an `Except` result is `ok`. -/
def isOkResult {α : Type} : Except String α → Bool
  | .ok _ => true
  | .error _ => false

/-- The base local's info of a value referencing a local. -/
def isConstantGlobalBase (P : Program) (v : Value) : Bool :=
  match v with
  | .localRef id _ =>
    match (P.info (P.info id).baseId).kind with
    | .globalKind isConstant => isConstant
    | _ => false
  | _ => false

def isStackAllocationBase (P : Program) (v : Value) : Bool :=
  match v with
  | .localRef id _ => decide ((P.info (P.info id).baseId).kind = LocalKind.stackAllocation)
  | _ => false

/-- `isGlobalWithLocalAddressSpace(const Local*)`. -/
def isGlobalWithLocalAddressSpace (info : LocalInfo) : Bool :=
  (match info.kind with
   | .globalKind _ => true
   | _ => false) &&
  (match info.type with
   | .pointer a _ => decide (a = AddressSpace.localAS)
   | _ => false)

def isLocalMemoryBase (P : Program) (v : Value) : Bool :=
  match v with
  | .localRef id _ => isGlobalWithLocalAddressSpace (P.info (P.info id).baseId)
  | _ => false

/-- `MemoryInstruction::accessesConstantGlobal()`: per tag, re-validate the
memory-location operand(s) and report whether a base is a constant global. -/
def accessesConstantGlobal (P : Program) (fuel : Nat) (mi : MemoryInstruction) :
    Except String Bool :=
  match mi.op with
  | .copy =>
    match checkMemoryLocation P fuel mi.src with
    | .error e => .error e
    | .ok _ =>
      match checkMemoryLocation P fuel mi.dest with
      | .error e => .error e
      | .ok _ => .ok (isConstantGlobalBase P mi.src || isConstantGlobalBase P mi.dest)
  | .fill =>
    match checkMemoryLocation P fuel mi.dest with
    | .error e => .error e
    | .ok _ => .ok (isConstantGlobalBase P mi.dest)
  | .read =>
    match checkMemoryLocation P fuel mi.src with
    | .error e => .error e
    | .ok _ => .ok (isConstantGlobalBase P mi.src)
  | .write =>
    match checkMemoryLocation P fuel mi.dest with
    | .error e => .error e
    | .ok _ => .ok (isConstantGlobalBase P mi.dest)

/-- `MemoryInstruction::accessesStackAllocation()`. -/
def accessesStackAllocation (P : Program) (fuel : Nat) (mi : MemoryInstruction) :
    Except String Bool :=
  match mi.op with
  | .copy =>
    match checkMemoryLocation P fuel mi.src with
    | .error e => .error e
    | .ok _ =>
      match checkMemoryLocation P fuel mi.dest with
      | .error e => .error e
      | .ok _ => .ok (isStackAllocationBase P mi.src || isStackAllocationBase P mi.dest)
  | .fill =>
    match checkMemoryLocation P fuel mi.dest with
    | .error e => .error e
    | .ok _ => .ok (isStackAllocationBase P mi.dest)
  | .read =>
    match checkMemoryLocation P fuel mi.src with
    | .error e => .error e
    | .ok _ => .ok (isStackAllocationBase P mi.src)
  | .write =>
    match checkMemoryLocation P fuel mi.dest with
    | .error e => .error e
    | .ok _ => .ok (isStackAllocationBase P mi.dest)

/-- `MemoryInstruction::accessesLocalMemory()`. -/
def accessesLocalMemory (P : Program) (fuel : Nat) (mi : MemoryInstruction) :
    Except String Bool :=
  match mi.op with
  | .copy =>
    match checkMemoryLocation P fuel mi.src with
    | .error e => .error e
    | .ok _ =>
      match checkMemoryLocation P fuel mi.dest with
      | .error e => .error e
      | .ok _ => .ok (isLocalMemoryBase P mi.src || isLocalMemoryBase P mi.dest)
  | .fill =>
    match checkMemoryLocation P fuel mi.dest with
    | .error e => .error e
    | .ok _ => .ok (isLocalMemoryBase P mi.dest)
  | .read =>
    match checkMemoryLocation P fuel mi.src with
    | .error e => .error e
    | .ok _ => .ok (isLocalMemoryBase P mi.src)
  | .write =>
    match checkMemoryLocation P fuel mi.dest with
    | .error e => .error e
    | .ok _ => .ok (isLocalMemoryBase P mi.dest)

/-- `MemoryInstruction::getSourceElementType(bool)`. -/
def getSourceElementType (P : Program) (fuel : Nat) (mi : MemoryInstruction)
    (sizedType : Bool) : Except String DataType :=
  match mi.op with
  | .copy =>
    match checkMemoryLocation P fuel mi.src with
    | .error e => .error e
    | .ok _ =>
      let elementType := mi.src.type.getElementType
      if !sizedType then .ok elementType
      else
        match mi.numEntries.getLiteralValue with
        | none => .error "Cannot calculate type-size from dynamically sized memory-operation"
        | some k => .ok (elementType.toArrayType k)
  | .fill =>
    match checkLocalValue P mi.src with
    | .error e => .error e
    | .ok _ => .ok mi.src.type
  | .read =>
    match checkMemoryLocation P fuel mi.src with
    | .error e => .error e
    | .ok _ =>
      match checkSingleValue mi.numEntries with
      | .error e => .error e
      | .ok _ => .ok mi.src.type.getElementType
  | .write =>
    match checkLocalValue P mi.src with
    | .error e => .error e
    | .ok _ =>
      match checkSingleValue mi.numEntries with
      | .error e => .error e
      | .ok _ => .ok mi.src.type

/-- `MemoryInstruction::getDestinationElementType(bool)`. -/
def getDestinationElementType (P : Program) (fuel : Nat) (mi : MemoryInstruction)
    (sizedType : Bool) : Except String DataType :=
  match mi.op with
  | .copy =>
    match checkMemoryLocation P fuel mi.dest with
    | .error e => .error e
    | .ok _ =>
      let elementType := mi.dest.type.getElementType
      if !sizedType then .ok elementType
      else
        match mi.numEntries.getLiteralValue with
        | none => .error "Cannot calculate type-size from dynamically sized memory-operation"
        | some k => .ok (elementType.toArrayType k)
  | .fill =>
    match checkMemoryLocation P fuel mi.dest with
    | .error e => .error e
    | .ok _ =>
      let elementType := mi.dest.type.getElementType
      if !sizedType then .ok elementType
      else
        match mi.numEntries.getLiteralValue with
        | none => .error "Cannot calculate type-size from dynamically sized memory-operation"
        | some k => .ok (elementType.toArrayType k)
  | .read =>
    match checkLocalValue P mi.dest with
    | .error e => .error e
    | .ok _ =>
      match checkSingleValue mi.numEntries with
      | .error e => .error e
      | .ok _ => .ok mi.dest.type
  | .write =>
    match checkMemoryLocation P fuel mi.dest with
    | .error e => .error e
    | .ok _ =>
      match checkSingleValue mi.numEntries with
      | .error e => .error e
      | .ok _ => .ok mi.dest.type.getElementType

/-- The base-local id of a value referencing a local (only used after the
memory-location validation succeeded). -/
def baseLocalId (P : Program) (v : Value) : Nat :=
  match v with
  | .localRef id _ => (P.info id).baseId
  | _ => 0

/-- `MemoryInstruction::getMemoryAreas()`: re-validate per tag and collect
the base locals of the designated operand(s). -/
def getMemoryAreas (P : Program) (fuel : Nat) (mi : MemoryInstruction) :
    Except String (List Nat) :=
  match mi.op with
  | .copy =>
    match checkMemoryLocation P fuel mi.src with
    | .error e => .error e
    | .ok _ =>
      match checkMemoryLocation P fuel mi.dest with
      | .error e => .error e
      | .ok _ => .ok [baseLocalId P mi.src, baseLocalId P mi.dest]
  | .fill =>
    match checkMemoryLocation P fuel mi.dest with
    | .error e => .error e
    | .ok _ => .ok [baseLocalId P mi.dest]
  | .read =>
    match checkMemoryLocation P fuel mi.src with
    | .error e => .error e
    | .ok _ => .ok [baseLocalId P mi.src]
  | .write =>
    match checkMemoryLocation P fuel mi.dest with
    | .error e => .error e
    | .ok _ => .ok [baseLocalId P mi.dest]

/-- The memory-location operands designated by the operation tag, as the
four `accesses*`/`getMemoryAreas` queries validate them: both operands for
`COPY`, the destination for `FILL` and `WRITE`, the source for `READ`. -/
def memoryOperandsValid (P : Program) (fuel : Nat) (mi : MemoryInstruction) : Bool :=
  match mi.op with
  | .copy =>
    isOkResult (checkMemoryLocation P fuel mi.src) &&
      isOkResult (checkMemoryLocation P fuel mi.dest)
  | .fill => isOkResult (checkMemoryLocation P fuel mi.dest)
  | .read => isOkResult (checkMemoryLocation P fuel mi.src)
  | .write => isOkResult (checkMemoryLocation P fuel mi.dest)

/-! ## Control-flow loops (`ControlFlowLoop.h`)

The implementation file of the loop analysis is not among the sources; the
definitions below are modelled from the specification against the interface
declared in `src/analysis/ControlFlowLoop.h`. -/

/-- A control-flow graph: node ids and directed edges, bidirectionally
navigable. -/
structure CFG where
  nodes : List Nat
  edges : List (Nat × Nat)

/-- The direct predecessors of a node: sources of the edges into it. -/
def CFG.predecessors (g : CFG) (x : Nat) : List Nat :=
  (g.edges.filter fun e => e.2 = x).map fun e => e.1

/-- A natural loop: its node set and the back edge it was detected from. -/
structure ControlFlowLoop where
  nodes : List Nat
  backEdgeSource : Nat
  backEdgeTarget : Nat

/-- Modelled from the spec: the backward-reachability search of the natural
loop detector, exploring predecessors from the back-edge source, stopping
at the back-edge target `n` and restricted to nodes dominated by `n`
(dominance is the externally supplied relation `dom`). -/
def backwardsReachable (g : CFG) (dom : Nat → Nat → Bool) (n : Nat) :
    Nat → List Nat → List Nat
  | 0, visited => visited
  | fuel + 1, visited =>
    let frontier :=
      (((visited.map g.predecessors).flatten.filter fun p =>
        dom n p && !(decide (p = n)) && !(visited.contains p))).dedup
    if frontier = [] then visited
    else backwardsReachable g dom n fuel (visited ++ frontier)

/-- Modelled from the spec: for a back edge `m → n` where `n` dominates `m`
the natural loop is the backward reachability set from `m` (stopping at
`n`, restricted to nodes dominated by `n`) with `n` itself added as the
header. -/
def detectNaturalLoop (g : CFG) (dom : Nat → Nat → Bool) (m n : Nat) : ControlFlowLoop :=
  { nodes := (n :: backwardsReachable g dom n g.nodes.length [m]).dedup
    backEdgeSource := m
    backEdgeTarget := n }

/-- Whether a loop node has at least one direct predecessor outside the loop
set. -/
def hasOutsidePredecessor (g : CFG) (L : ControlFlowLoop) (x : Nat) : Bool :=
  (g.predecessors x).any fun p => !(L.nodes.contains p)

/-- Modelled from the spec: `ControlFlowLoop::getHeader` returns the unique
node in the loop with at least one direct predecessor outside the loop set,
and an absent result when no such unique node exists. -/
def ControlFlowLoop.getHeader (g : CFG) (L : ControlFlowLoop) : Option Nat :=
  match L.nodes.filter (hasOutsidePredecessor g L) with
  | [x] => some x
  | _ => none

/-- Modelled from the spec: `ControlFlowLoop::getTail` returns the node from
which the back edge into the header originates. -/
def ControlFlowLoop.getTail (L : ControlFlowLoop) : Option Nat :=
  some L.backEdgeSource

/-! ### Loop inclusion tree -/

/-- Modelled from the spec: loop `A` includes loop `B` iff `B`'s node set is
contained in `A`'s node set and `A ≠ B` (node sets of the loops, here
represented as finite sets). -/
def loopIncludes (A B : Finset Nat) : Bool :=
  decide (B ⊆ A ∧ A ≠ B)

/-- Modelled from the spec: in `createLoopInclusingTree`, the parent of loop
`B` is the innermost loop of the flat list that includes `B`: a loop `A`
including `B` such that no other included loop `C` satisfies
`B ⊂ C ⊂ A`; loops with no including loop have no parent and become forest
roots. -/
def loopParent (loops : List (Finset Nat)) (B : Finset Nat) : Option (Finset Nat) :=
  match (loops.filter fun A => loopIncludes A B).filter
      (fun A => (loops.filter fun A2 => loopIncludes A2 B).all fun C => !(loopIncludes A C)) with
  | A :: _ => some A
  | [] => none

/-- The children of a loop in the inclusion forest: the loops of the flat
list whose parent it is. -/
def loopChildren (loops : List (Finset Nat)) (A : Finset Nat) : List (Finset Nat) :=
  loops.filter fun B => decide (loopParent loops B = some A)

/-! ### Induction variables -/

/-- Comparison operators of a loop repeat condition; the spec distinguishes
strict and inclusive comparisons. -/
inductive CompOp where
  | lt
  | le
  | gt
  | ge
deriving DecidableEq

/-- An induction variable, modelled from the spec and the declaration in
`ControlFlowLoop.h`: the local, the initially assigned value, the step
operation (opcode and step operand), the optional repeat condition
(comparison and compared-to value) and whether the condition is checked
before the step is applied. -/
structure InductionVariable where
  localId : Nat
  initialValue : Value
  inductionStep : OpCode × Value
  repeatCondition : Option (CompOp × Value) := none
  conditionCheckedBeforeStep : Bool := false

/-- Modelled from the spec: the lower bound is the initial assignment's
literal value. -/
def InductionVariable.getLowerBound (iv : InductionVariable) : Option Nat :=
  iv.initialValue.getLiteralValue

/-- Modelled from the spec: the upper bound is the repeat condition's
literal compared value. -/
def InductionVariable.getUpperBound (iv : InductionVariable) : Option Nat :=
  match iv.repeatCondition with
  | some c => c.2.getLiteralValue
  | none => none

/-- Modelled from the spec: the step is the literal magnitude and sign of
the per-iteration update operation. -/
def InductionVariable.getStep (iv : InductionVariable) : Option Int :=
  match iv.inductionStep with
  | (OpCode.add, v) => v.getLiteralValue.map Int.ofNat
  | (OpCode.sub, v) => v.getLiteralValue.map fun k => -(Int.ofNat k)
  | _ => none

/-- Modelled from the spec: the range is the absolute difference of upper
and lower bound. -/
def InductionVariable.getRange (iv : InductionVariable) : Option Nat :=
  match iv.getLowerBound, iv.getUpperBound with
  | some l, some u => some ((Int.ofNat u - Int.ofNat l).natAbs)
  | _, _ => none

/-- Modelled from the spec: the iteration count is the range divided by the
absolute step, adjusted by one for an inclusive comparison; the spec pins
only the strict less-than comparison checked before the step (count equals
range divided by step exactly) and leaves the remaining combinations as an
open question, here modelled with the same division and the inclusive
adjustment. -/
def InductionVariable.getIterationCount (iv : InductionVariable) : Option Nat :=
  match iv.getRange, iv.getStep, iv.repeatCondition with
  | some range, some step, some c =>
    if step.natAbs = 0 then none
    else
      match c.1 with
      | CompOp.lt => some (range / step.natAbs)
      | CompOp.gt => some (range / step.natAbs)
      | CompOp.le => some (range / step.natAbs + 1)
      | CompOp.ge => some (range / step.natAbs + 1)
  | _, _, _ => none

/-- The induction variable of the spec's canonical counting loop: initial
assignment the literal 0, step an addition of the literal 1, repeat
condition a strict less-than comparison against the literal `N`, checked
before the step. -/
def canonicalCountingLoop (N : Nat) : InductionVariable :=
  { localId := 0
    initialValue := Value.lit 0 TYPE_INT32
    inductionStep := (OpCode.add, Value.lit 1 TYPE_INT32)
    repeatCondition := some (CompOp.lt, Value.lit N TYPE_INT32)
    conditionCheckedBeforeStep := true }

/-! ## Theorems -/

/-- C10: every memory instruction, regardless of operation tag and
operands, reports side effects and is not normalized. -/
theorem memoryInstruction_always_sideEffecting (mi : MemoryInstruction) :
    mi.hasSideEffects = true ∧ mi.isNormalized = false :=
  ⟨rfl, rfl⟩

/-- C4: constructing a memory instruction with tag READ or WRITE and an
entry count other than the literal one fails, while COPY and FILL accept
any entry count, literal or not. -/
theorem memoryInstruction_count_validation (op : MemoryOperation)
    (dest src numEntries : Value) :
    ((op = MemoryOperation.read ∨ op = MemoryOperation.write) → numEntries ≠ INT_ONE →
      isOkResult (MemoryInstruction.make op dest src numEntries) = false)
    ∧ ((op = MemoryOperation.copy ∨ op = MemoryOperation.fill) →
      isOkResult (MemoryInstruction.make op dest src numEntries) = true) := by
  constructor
  · intro hop hne
    unfold MemoryInstruction.make
    rw [if_pos hne, if_pos]
    · rfl
    · rcases hop with h | h <;> subst h <;> exact ⟨by simp, by simp⟩
  · intro hop
    unfold MemoryInstruction.make
    by_cases hne : numEntries = INT_ONE
    · rw [if_neg (by simp [hne])]
      rfl
    · rw [if_pos hne, if_neg]
      · rfl
      · rcases hop with h | h <;> subst h <;> simp
  
/-- Witness for C4: a WRITE with entry count literal 2 fails, a COPY with
entry count literal 2 succeeds. -/
theorem memoryInstruction_count_validation_witness :
    isOkResult (MemoryInstruction.make MemoryOperation.write
      (Value.localRef 0 (DataType.pointer AddressSpace.globalAS TYPE_INT32))
      (Value.lit 7 TYPE_INT32) (Value.lit 2 TYPE_INT32)) = false
    ∧ isOkResult (MemoryInstruction.make MemoryOperation.copy
      (Value.localRef 0 (DataType.pointer AddressSpace.globalAS TYPE_INT32))
      (Value.localRef 1 (DataType.pointer AddressSpace.globalAS TYPE_INT32))
      (Value.lit 2 TYPE_INT32)) = true :=
  ⟨(memoryInstruction_count_validation _ _ _ _).1 (Or.inr rfl) (by decide),
   (memoryInstruction_count_validation _ _ _ _).2 (Or.inl rfl)⟩

/-- A program with a single ordinary pointer local that has no users at
all. -/
def progNoUsers : Program :=
  { info := fun _ => ⟨LocalKind.ordinary, DataType.pointer AddressSpace.globalAS TYPE_INT32, 0⟩
    writers := fun _ => []
    users := fun _ => [] }

/-- Counterexample to C5: for a local with an empty user list, the
non-address path of `canMoveIntoVPM` returns eligible (`true`), because
`std::all_of` over an empty range is vacuously true; the claim states the
path always returns ineligible. -/
theorem canMoveIntoVPM_value_counterexample :
    canMoveIntoVPM 12 4096 progNoUsers 1
      (Value.localRef 0 (DataType.pointer AddressSpace.globalAS TYPE_INT32)) false
      = Except.ok true := rfl

/-- C5 (amended): the non-address path of `canMoveIntoVPM` returns
ineligible for every non-local value and for every local that has at least
one user; only a local with no users at all is (vacuously) reported
eligible. -/
theorem canMoveIntoVPM_value_amended (numQPUs vpmSize : Nat) (P : Program)
    (fuel : Nat) (v : Value) :
    (v.checkLocal = false →
      canMoveIntoVPM numQPUs vpmSize P fuel v false = Except.ok false)
    ∧ (∀ id t, v = Value.localRef id t → P.users id ≠ [] →
      canMoveIntoVPM numQPUs vpmSize P fuel v false = Except.ok false) := by
  constructor
  · intro h
    cases v with
    | lit n t => rfl
    | localRef id t => simp [Value.checkLocal] at h
  · intro id t hv hne
    subst hv
    cases hu : P.users id with
    | nil => exact absurd hu hne
    | cons a l => simp [canMoveIntoVPM, hu]

/-- A program with a single ordinary pointer local that has one user. -/
def progOneUser : Program :=
  { info := fun _ => ⟨LocalKind.ordinary, DataType.pointer AddressSpace.globalAS TYPE_INT32, 0⟩
    writers := fun _ => []
    users := fun _ => [UseInst.memoryInst] }

/-- Witness for the amended C5: a literal value and a local with one user
are both reported ineligible by the non-address path. -/
theorem canMoveIntoVPM_value_amended_witness :
    canMoveIntoVPM 12 4096 progOneUser 1 (Value.lit 5 TYPE_INT32) false = Except.ok false
    ∧ canMoveIntoVPM 12 4096 progOneUser 1
      (Value.localRef 0 (DataType.pointer AddressSpace.globalAS TYPE_INT32)) false
      = Except.ok false :=
  ⟨(canMoveIntoVPM_value_amended 12 4096 progOneUser 1 _).1 rfl,
   (canMoveIntoVPM_value_amended 12 4096 progOneUser 1 _).2 0 _ rfl (by decide)⟩

/-- A program with a single ordinary pointer local whose only writer is a
memory instruction (the destination of a READ). -/
def progReadDest : Program :=
  { info := fun _ => ⟨LocalKind.ordinary, DataType.pointer AddressSpace.globalAS TYPE_INT32, 0⟩
    writers := fun _ => [UseInst.memoryInst]
    users := fun _ => [UseInst.memoryInst] }

/-- Counterexample to C3: a local whose only writer is a memory instruction
and whose base neither resides in memory nor is a parameter is classified
as derived from memory (`true`); the claim states `false`.  The
memory-instruction writer is skipped by the writer loop, which leaves the
all-writers conjunction at its initial `true`. -/
theorem isDerivedFromMemory_memoryInst_counterexample :
    residesInMemory (progReadDest.info (progReadDest.info 0).baseId).kind = false
    ∧ (progReadDest.info (progReadDest.info 0).baseId).kind ≠ LocalKind.parameter
    ∧ progReadDest.writers 0 = [UseInst.memoryInst]
    ∧ isDerivedFromMemory progReadDest 1 0 = true := by decide

/-- C3 (amended): for a local whose producing instruction is a memory
instruction and whose base neither resides in memory nor is a parameter,
`isDerivedFromMemory` returns `true`: the memory-instruction writer is
skipped and does not disqualify the local. -/
theorem isDerivedFromMemory_memoryInst_writer (P : Program) (fuel id : Nat)
    (hmem : residesInMemory (P.info (P.info id).baseId).kind = false)
    (hpar : (P.info (P.info id).baseId).kind ≠ LocalKind.parameter)
    (hw : P.writers id = [UseInst.memoryInst]) :
    isDerivedFromMemory P (fuel + 1) id = true := by
  simp [isDerivedFromMemory, hmem, hpar, hw]

/-- Witness for the amended C3. -/
theorem isDerivedFromMemory_memoryInst_writer_witness :
    isDerivedFromMemory progReadDest 1 0 = true :=
  isDerivedFromMemory_memoryInst_writer progReadDest 0 0 (by decide) (by decide) (by decide)

/-- A program with: local 0, an ordinary pointer local written by an
unhandled instruction (hence not derived from memory); local 1, written by
an add of local 0 (pointer) and a non-pointer literal offset; local 2,
written by an add of two pointer locals. -/
def progAddShapes : Program :=
  { info := fun id =>
      if id = 0 then ⟨LocalKind.ordinary, DataType.pointer AddressSpace.globalAS TYPE_INT32, 0⟩
      else if id = 1 then ⟨LocalKind.ordinary, DataType.pointer AddressSpace.globalAS TYPE_INT32, 1⟩
      else ⟨LocalKind.ordinary, DataType.pointer AddressSpace.globalAS TYPE_INT32, 2⟩
    writers := fun id =>
      if id = 0 then [UseInst.other]
      else if id = 1 then
        [UseInst.operation OpCode.add
          (Value.localRef 0 (DataType.pointer AddressSpace.globalAS TYPE_INT32))
          (Value.lit 4 TYPE_INT32)]
      else if id = 2 then
        [UseInst.operation OpCode.add
          (Value.localRef 0 (DataType.pointer AddressSpace.globalAS TYPE_INT32))
          (Value.localRef 1 (DataType.pointer AddressSpace.globalAS TYPE_INT32))]
      else []
    users := fun _ => [] }

/-- Counterexample to C2: local 1 is defined as `pointerLocal + offset`
where the pointer local 0 is itself not derived from memory, yet local 1 is
classified as derived from memory: the add/subtract case accepts the shape
without recursing into the pointer operand, so the classification does not
follow the pointer-typed operand. -/
theorem isDerivedFromMemory_addOffset_counterexample :
    isDerivedFromMemory progAddShapes 2 0 = false
    ∧ progAddShapes.writers 1 =
      [UseInst.operation OpCode.add
        (Value.localRef 0 (DataType.pointer AddressSpace.globalAS TYPE_INT32))
        (Value.lit 4 TYPE_INT32)]
    ∧ isDerivedFromMemory progAddShapes 2 1 = true := by decide

/-- C2 (amended): `isDerivedFromMemory` returns true for every local whose
base resolves to a Global, StackAllocation or Parameter; a local all of
whose writers are add/subtract operations with exactly one pointer-typed
operand that is a local is classified memory-derived regardless of the
pointer operand's own classification (the shape is accepted without
recursion); and a local defined as the sum of two pointer-typed locals
(with a base that is neither memory-resident nor a parameter) is not
memory-derived. -/
theorem isDerivedFromMemory_origin_classification (P : Program) (fuel id : Nat) :
    ((residesInMemory (P.info (P.info id).baseId).kind = true
        ∨ (P.info (P.info id).baseId).kind = LocalKind.parameter) →
      isDerivedFromMemory P (fuel + 1) id = true)
    ∧ ((∀ w ∈ P.writers id, ∃ opc a0 a1, w = UseInst.operation opc a0 a1
          ∧ (opc = OpCode.add ∨ opc = OpCode.sub)
          ∧ ((a0.checkLocal = true ∧ a0.type.isPointerType = true ∧ a1.type.isPointerType = false)
            ∨ (a1.checkLocal = true ∧ a0.type.isPointerType = false ∧ a1.type.isPointerType = true))) →
      isDerivedFromMemory P (fuel + 1) id = true)
    ∧ (∀ opc p q t1 t2,
        residesInMemory (P.info (P.info id).baseId).kind = false →
        (P.info (P.info id).baseId).kind ≠ LocalKind.parameter →
        P.writers id = [UseInst.operation opc (Value.localRef p t1) (Value.localRef q t2)] →
        t1.isPointerType = true → t2.isPointerType = true →
        isDerivedFromMemory P (fuel + 1) id = false) := by
  refine ⟨?_, ?_, ?_⟩
  · intro h
    rcases h with h | h <;> simp [isDerivedFromMemory, h]
  · intro h
    by_cases htop : (residesInMemory (P.info (P.info id).baseId).kind
        || decide ((P.info (P.info id).baseId).kind = LocalKind.parameter)) = true
    · simp [isDerivedFromMemory, htop]
    · simp only [isDerivedFromMemory]
      rw [if_neg (by simpa using htop)]
      rw [List.all_eq_true]
      intro w hw
      obtain ⟨opc, a0, a1, hshape, hop, hargs⟩ := h w hw
      subst hshape
      rcases hargs with ⟨h1, h2, h3⟩ | ⟨h1, h2, h3⟩ <;>
        rcases hop with hop | hop <;> subst hop <;> simp [h1, h2, h3]
  · intro opc p q t1 t2 hmem hpar hw h1 h2
    simp only [isDerivedFromMemory]
    rw [if_neg (by simp [hmem, hpar]), hw]
    cases opc <;> simp [h1, h2, Value.checkLocal, Value.type]

/-- A program with a single parameter local. -/
def progParamBase : Program :=
  { info := fun _ => ⟨LocalKind.parameter, DataType.pointer AddressSpace.globalAS TYPE_INT32, 0⟩
    writers := fun _ => []
    users := fun _ => [] }

/-- Witness for the amended C2: the three conjuncts hold at concrete
locals of `progParamBase` and `progAddShapes`. -/
theorem isDerivedFromMemory_origin_classification_witness :
    isDerivedFromMemory progParamBase 1 0 = true
    ∧ isDerivedFromMemory progAddShapes 1 1 = true
    ∧ isDerivedFromMemory progAddShapes 1 2 = false :=
  ⟨(isDerivedFromMemory_origin_classification progParamBase 0 0).1 (Or.inr (by decide)),
   (isDerivedFromMemory_origin_classification progAddShapes 0 1).2.1 (by
      intro w hw
      have hw' : w = UseInst.operation OpCode.add
          (Value.localRef 0 (DataType.pointer AddressSpace.globalAS TYPE_INT32))
          (Value.lit 4 TYPE_INT32) := by
        simpa [progAddShapes] using hw
      exact ⟨OpCode.add, _, _, hw', Or.inl rfl, Or.inl ⟨rfl, rfl, rfl⟩⟩),
   (isDerivedFromMemory_origin_classification progAddShapes 0 2).2.2 OpCode.add 0 1
     (DataType.pointer AddressSpace.globalAS TYPE_INT32)
     (DataType.pointer AddressSpace.globalAS TYPE_INT32)
     (by decide) (by decide) (by decide) rfl rfl⟩

/-- C1: for every address operand that passes the memory-location
validation, eligibility follows the origin table: the struct / oversized
element overrides make any origin ineligible; otherwise a constant global
is eligible, a non-constant global is eligible iff its address space is the
local address space, a parameter is ineligible, and a stack allocation is
eligible iff its element physical width times the number of QPUs is
strictly below the scratchpad capacity. -/
theorem canMoveIntoVPM_address_origin_table (numQPUs vpmSize : Nat) (P : Program)
    (fuel id : Nat) (t : DataType) (base : LocalInfo)
    (hbase : P.info (P.info id).baseId = base)
    (hok : checkMemoryLocation P fuel (Value.localRef id t) = Except.ok ()) :
    ((hasStructElement base.type = true ∨
        vpmSize < (getVPMStorageType base.type.getElementType).getPhysicalWidth) →
      canMoveIntoVPM numQPUs vpmSize P fuel (Value.localRef id t) true = Except.ok false)
    ∧ (hasStructElement base.type = false →
      (getVPMStorageType base.type.getElementType).getPhysicalWidth ≤ vpmSize →
      ((base.kind = LocalKind.globalKind true →
        canMoveIntoVPM numQPUs vpmSize P fuel (Value.localRef id t) true = Except.ok true)
      ∧ (base.kind = LocalKind.globalKind false →
        (canMoveIntoVPM numQPUs vpmSize P fuel (Value.localRef id t) true = Except.ok true ↔
          ∃ pointee, base.type = DataType.pointer AddressSpace.localAS pointee))
      ∧ (base.kind = LocalKind.parameter →
        canMoveIntoVPM numQPUs vpmSize P fuel (Value.localRef id t) true = Except.ok false)
      ∧ (base.kind = LocalKind.stackAllocation →
        (canMoveIntoVPM numQPUs vpmSize P fuel (Value.localRef id t) true = Except.ok true ↔
          (getVPMStorageType base.type.getElementType).getPhysicalWidth * numQPUs < vpmSize)))) := by
  have hres : canMoveIntoVPM numQPUs vpmSize P fuel (Value.localRef id t) true =
      (if hasStructElement base.type then Except.ok false
       else if (getVPMStorageType base.type.getElementType).getPhysicalWidth > vpmSize then
         Except.ok false
       else
         match base.kind with
         | .globalKind isConstant =>
           Except.ok (isConstant ||
             (match base.type with
              | .pointer a _ => decide (a = AddressSpace.localAS)
              | _ => false))
         | .parameter => Except.ok false
         | .stackAllocation =>
           Except.ok (decide
             ((getVPMStorageType base.type.getElementType).getPhysicalWidth * numQPUs < vpmSize))
         | .ordinary => Except.ok false) := by
    simp only [canMoveIntoVPM, hok, hbase, if_true]
  constructor
  · intro h
    by_cases hs : hasStructElement base.type = true
    · rw [hres, if_pos hs]
    · rcases h with h | h
      · exact absurd h hs
      · rw [hres, if_neg (by simp [hs]), if_pos h]
  · intro hs hw
    have hw' : ¬((getVPMStorageType base.type.getElementType).getPhysicalWidth > vpmSize) :=
      not_lt.mpr hw
    refine ⟨?_, ?_, ?_, ?_⟩
    · intro hk
      rw [hres, if_neg (by simp [hs]), if_neg hw', hk]
      simp
    · intro hk
      rw [hres, if_neg (by simp [hs]), if_neg hw', hk]
      cases hbt : base.type <;> simp [hbt]
    · intro hk
      rw [hres, if_neg (by simp [hs]), if_neg hw', hk]
    · intro hk
      rw [hres, if_neg (by simp [hs]), if_neg hw', hk]
      simp

/-- A program with one local per origin kind: a constant global, a
non-constant global with local address space, a parameter, a stack
allocation, and a constant global with struct element type. -/
def progOrigins : Program :=
  { info := fun id =>
      if id = 0 then
        ⟨LocalKind.globalKind true, DataType.pointer AddressSpace.globalAS (DataType.scalar 4), 0⟩
      else if id = 1 then
        ⟨LocalKind.globalKind false, DataType.pointer AddressSpace.localAS (DataType.scalar 4), 1⟩
      else if id = 2 then
        ⟨LocalKind.parameter, DataType.pointer AddressSpace.globalAS (DataType.scalar 4), 2⟩
      else if id = 3 then
        ⟨LocalKind.stackAllocation, DataType.pointer AddressSpace.privateAS (DataType.scalar 4), 3⟩
      else
        ⟨LocalKind.globalKind true, DataType.pointer AddressSpace.globalAS (DataType.structType 8), 4⟩
    writers := fun _ => []
    users := fun _ => [] }

/-- Witness for C1: with capacity 4096 and 12 QPUs, the constant global,
the local-address-space global and the fitting stack allocation are
eligible, the parameter and the struct-typed global are not. -/
theorem canMoveIntoVPM_address_origin_table_witness :
    canMoveIntoVPM 12 4096 progOrigins 1
      (Value.localRef 0 (DataType.pointer AddressSpace.globalAS (DataType.scalar 4))) true
      = Except.ok true
    ∧ canMoveIntoVPM 12 4096 progOrigins 1
      (Value.localRef 1 (DataType.pointer AddressSpace.globalAS (DataType.scalar 4))) true
      = Except.ok true
    ∧ canMoveIntoVPM 12 4096 progOrigins 1
      (Value.localRef 2 (DataType.pointer AddressSpace.globalAS (DataType.scalar 4))) true
      = Except.ok false
    ∧ canMoveIntoVPM 12 4096 progOrigins 1
      (Value.localRef 3 (DataType.pointer AddressSpace.globalAS (DataType.scalar 4))) true
      = Except.ok true
    ∧ canMoveIntoVPM 12 4096 progOrigins 1
      (Value.localRef 4 (DataType.pointer AddressSpace.globalAS (DataType.scalar 4))) true
      = Except.ok false :=
  ⟨((canMoveIntoVPM_address_origin_table 12 4096 progOrigins 1 0
      (DataType.pointer AddressSpace.globalAS (DataType.scalar 4)) _ rfl rfl).2
      (by decide) (by decide)).1 rfl,
   (((canMoveIntoVPM_address_origin_table 12 4096 progOrigins 1 1
      (DataType.pointer AddressSpace.globalAS (DataType.scalar 4)) _ rfl rfl).2
      (by decide) (by decide)).2.1 rfl).mpr ⟨DataType.scalar 4, rfl⟩,
   ((canMoveIntoVPM_address_origin_table 12 4096 progOrigins 1 2
      (DataType.pointer AddressSpace.globalAS (DataType.scalar 4)) _ rfl rfl).2
      (by decide) (by decide)).2.2.1 rfl,
   (((canMoveIntoVPM_address_origin_table 12 4096 progOrigins 1 3
      (DataType.pointer AddressSpace.globalAS (DataType.scalar 4)) _ rfl rfl).2
      (by decide) (by decide)).2.2.2 rfl).mpr (by decide),
   (canMoveIntoVPM_address_origin_table 12 4096 progOrigins 1 4
      (DataType.pointer AddressSpace.globalAS (DataType.scalar 4)) _ rfl rfl).1
     (Or.inl (by decide))⟩

/-- C6: every derived classification query re-runs the memory-location
validation for the operand(s) designated by its operation tag (both
operands for COPY, the destination for FILL and WRITE, the source for READ;
for the element-type queries only the memory-side operand) and fails with
an error, rather than returning a result, whenever that validation fails —
there is no cached classification to answer from. -/
theorem derivedQueries_revalidate (P : Program) (fuel : Nat) (mi : MemoryInstruction)
    (sizedType : Bool) :
    (memoryOperandsValid P fuel mi = false →
      isOkResult (accessesConstantGlobal P fuel mi) = false
      ∧ isOkResult (accessesStackAllocation P fuel mi) = false
      ∧ isOkResult (accessesLocalMemory P fuel mi) = false
      ∧ isOkResult (getMemoryAreas P fuel mi) = false)
    ∧ ((mi.op = MemoryOperation.copy ∨ mi.op = MemoryOperation.read) →
      isOkResult (checkMemoryLocation P fuel mi.src) = false →
      isOkResult (getSourceElementType P fuel mi sizedType) = false)
    ∧ ((mi.op = MemoryOperation.copy ∨ mi.op = MemoryOperation.fill ∨
        mi.op = MemoryOperation.write) →
      isOkResult (checkMemoryLocation P fuel mi.dest) = false →
      isOkResult (getDestinationElementType P fuel mi sizedType) = false) := by
  refine ⟨?_, ?_, ?_⟩
  · intro h
    cases hop : mi.op with
    | copy =>
      simp only [memoryOperandsValid, hop] at h
      cases hs : checkMemoryLocation P fuel mi.src with
      | error e =>
        refine ⟨?_, ?_, ?_, ?_⟩ <;>
          simp [accessesConstantGlobal, accessesStackAllocation, accessesLocalMemory,
            getMemoryAreas, hop, hs, isOkResult]
      | ok u =>
        cases hd : checkMemoryLocation P fuel mi.dest with
        | error e =>
          refine ⟨?_, ?_, ?_, ?_⟩ <;>
            simp [accessesConstantGlobal, accessesStackAllocation, accessesLocalMemory,
              getMemoryAreas, hop, hs, hd, isOkResult]
        | ok v => simp [hs, hd, isOkResult] at h
    | fill =>
      simp only [memoryOperandsValid, hop] at h
      cases hd : checkMemoryLocation P fuel mi.dest with
      | error e =>
        refine ⟨?_, ?_, ?_, ?_⟩ <;>
          simp [accessesConstantGlobal, accessesStackAllocation, accessesLocalMemory,
            getMemoryAreas, hop, hd, isOkResult]
      | ok u => simp [hd, isOkResult] at h
    | read =>
      simp only [memoryOperandsValid, hop] at h
      cases hs : checkMemoryLocation P fuel mi.src with
      | error e =>
        refine ⟨?_, ?_, ?_, ?_⟩ <;>
          simp [accessesConstantGlobal, accessesStackAllocation, accessesLocalMemory,
            getMemoryAreas, hop, hs, isOkResult]
      | ok u => simp [hs, isOkResult] at h
    | write =>
      simp only [memoryOperandsValid, hop] at h
      cases hd : checkMemoryLocation P fuel mi.dest with
      | error e =>
        refine ⟨?_, ?_, ?_, ?_⟩ <;>
          simp [accessesConstantGlobal, accessesStackAllocation, accessesLocalMemory,
            getMemoryAreas, hop, hd, isOkResult]
      | ok u => simp [hd, isOkResult] at h
  · intro hop' hsrc
    rcases hop' with hop | hop <;>
    · cases hs : checkMemoryLocation P fuel mi.src with
      | error e => simp [getSourceElementType, hop, hs, isOkResult]
      | ok u => simp [hs, isOkResult] at hsrc
  · intro hop' hdest
    rcases hop' with hop | hop | hop <;>
    · cases hd : checkMemoryLocation P fuel mi.dest with
      | error e => simp [getDestinationElementType, hop, hd, isOkResult]
      | ok u => simp [hd, isOkResult] at hdest

/-- A READ whose source operand is not even pointer-typed. -/
def invalidReadInst : MemoryInstruction :=
  { op := MemoryOperation.read
    dest := Value.localRef 0 TYPE_INT32
    src := Value.lit 5 TYPE_INT32
    numEntries := INT_ONE }

/-- A WRITE whose destination operand is not even pointer-typed. -/
def invalidWriteInst : MemoryInstruction :=
  { op := MemoryOperation.write
    dest := Value.lit 5 TYPE_INT32
    src := Value.localRef 0 TYPE_INT32
    numEntries := INT_ONE }

/-- Witness for C6: with a non-pointer source a READ fails its
classification queries, with a non-pointer destination a WRITE fails its
destination element-type query. -/
theorem derivedQueries_revalidate_witness :
    isOkResult (accessesConstantGlobal progNoUsers 1 invalidReadInst) = false
    ∧ isOkResult (getSourceElementType progNoUsers 1 invalidReadInst true) = false
    ∧ isOkResult (getDestinationElementType progNoUsers 1 invalidWriteInst true) = false :=
  ⟨((derivedQueries_revalidate progNoUsers 1 invalidReadInst true).1 (by decide)).1,
   (derivedQueries_revalidate progNoUsers 1 invalidReadInst true).2.1 (Or.inr rfl) (by decide),
   (derivedQueries_revalidate progNoUsers 1 invalidWriteInst true).2.2
     (Or.inr (Or.inr rfl)) (by decide)⟩

/-- C9: for the canonical counting loop (initial value literal 0, step +1,
repeat condition a strict less-than against the literal `N`, checked before
the step), the lower bound is 0, the step is 1, the upper bound is `N`, and
the iteration count is exactly `N`. -/
theorem inductionVariable_canonical_bounds (N : Nat) :
    (canonicalCountingLoop N).getLowerBound = some 0
    ∧ (canonicalCountingLoop N).getStep = some 1
    ∧ (canonicalCountingLoop N).getUpperBound = some N
    ∧ (canonicalCountingLoop N).getIterationCount = some N := by
  refine ⟨rfl, rfl, rfl, ?_⟩
  simp [InductionVariable.getIterationCount, InductionVariable.getRange,
    InductionVariable.getLowerBound, InductionVariable.getUpperBound,
    InductionVariable.getStep, canonicalCountingLoop, Value.getLiteralValue]

/-- A list with no duplicates whose only element satisfying `p` is `n`
filters to exactly `[n]`. -/
theorem filter_eq_singleton_of_unique (l : List Nat) (p : Nat → Bool) (n : Nat)
    (hnd : l.Nodup) (hmem : n ∈ l) (hp : p n = true)
    (huniq : ∀ x ∈ l, p x = true → x = n) :
    l.filter p = [n] := by
  induction l with
  | nil => cases hmem
  | cons a l ih =>
    have hnd' : l.Nodup := (List.nodup_cons.mp hnd).2
    have ha : a ∉ l := (List.nodup_cons.mp hnd).1
    rcases List.mem_cons.mp hmem with h | h
    · subst h
      have hf : l.filter p = [] := by
        by_contra hne
        obtain ⟨x, hx⟩ := List.exists_mem_of_ne_nil _ hne
        have hx' := List.mem_filter.mp hx
        have hxn := huniq x (List.mem_cons_of_mem _ hx'.1) hx'.2
        exact ha (hxn ▸ hx'.1)
      rw [List.filter_cons_of_pos hp, hf]
    · have hpa : ¬(p a = true) := by
        intro hpa
        have han := huniq a (List.mem_cons_self a l) hpa
        subst han
        exact ha h
      rw [List.filter_cons_of_neg (by simpa using hpa)]
      exact ih hnd' h fun x hx hpx => huniq x (List.mem_cons_of_mem _ hx) hpx

/-- C7: for the loop detected from a back edge `m → n` (with `n` the only
loop node having an outside predecessor, as dominance guarantees for a
well-formed CFG), `getHeader` returns `n` and `getTail` returns `m`; in
general `getHeader` returns an absent result when no loop node, or more
than one loop node, has a direct predecessor outside the loop set. -/
theorem loop_header_and_tail :
    (∀ (g : CFG) (dom : Nat → Nat → Bool) (m n : Nat),
      hasOutsidePredecessor g (detectNaturalLoop g dom m n) n = true →
      (∀ x ∈ (detectNaturalLoop g dom m n).nodes, x ≠ n →
        hasOutsidePredecessor g (detectNaturalLoop g dom m n) x = false) →
      (detectNaturalLoop g dom m n).getHeader g = some n
      ∧ (detectNaturalLoop g dom m n).getTail = some m)
    ∧ (∀ (g : CFG) (L : ControlFlowLoop),
      (∀ x ∈ L.nodes, hasOutsidePredecessor g L x = false) →
      L.getHeader g = none)
    ∧ (∀ (g : CFG) (L : ControlFlowLoop) (x y : Nat),
      x ∈ L.nodes → y ∈ L.nodes → x ≠ y →
      hasOutsidePredecessor g L x = true → hasOutsidePredecessor g L y = true →
      L.getHeader g = none) := by
  refine ⟨?_, ?_, ?_⟩
  · intro g dom m n h1 h2
    refine ⟨?_, rfl⟩
    have hnd : (detectNaturalLoop g dom m n).nodes.Nodup := List.nodup_dedup _
    have hmem : n ∈ (detectNaturalLoop g dom m n).nodes := by
      unfold detectNaturalLoop
      simp
    have hfil := filter_eq_singleton_of_unique (detectNaturalLoop g dom m n).nodes
      (hasOutsidePredecessor g (detectNaturalLoop g dom m n)) n hnd hmem h1
      (fun x hx hpx => by
        by_contra hne
        rw [h2 x hx hne] at hpx
        cases hpx)
    unfold ControlFlowLoop.getHeader
    rw [hfil]
  · intro g L h
    have hf : L.nodes.filter (hasOutsidePredecessor g L) = [] := by
      rw [List.filter_eq_nil_iff]
      intro x hx
      simp [h x hx]
    unfold ControlFlowLoop.getHeader
    rw [hf]
  · intro g L x y hx hy hxy hpx hpy
    have hx' : x ∈ L.nodes.filter (hasOutsidePredecessor g L) :=
      List.mem_filter.mpr ⟨hx, hpx⟩
    have hy' : y ∈ L.nodes.filter (hasOutsidePredecessor g L) :=
      List.mem_filter.mpr ⟨hy, hpy⟩
    unfold ControlFlowLoop.getHeader
    cases hf : L.nodes.filter (hasOutsidePredecessor g L) with
    | nil => exact absurd (hf ▸ hx') (List.not_mem_nil x)
    | cons a t =>
      cases t with
      | nil =>
        rw [hf] at hx' hy'
        simp at hx' hy'
        exact absurd (hx'.trans hy'.symm) hxy
      | cons b t2 => rfl

/-- A three-node CFG `0 → 1 → 2 → 1` with the back edge `2 → 1`. -/
def cfg0 : CFG := { nodes := [0, 1, 2], edges := [(0, 1), (1, 2), (2, 1)] }

/-- The externally computed dominance for `cfg0`: node 1 dominates 1, 2. -/
def dom0 : Nat → Nat → Bool := fun a b => a == 1 && (b == 1 || b == 2)

/-- Witness for C7: in `cfg0`, the loop detected from the back edge
`2 → 1` has header 1 and tail 2. -/
theorem loop_header_and_tail_witness :
    (detectNaturalLoop cfg0 dom0 2 1).getHeader cfg0 = some 1
    ∧ (detectNaturalLoop cfg0 dom0 2 1).getTail = some 2 :=
  loop_header_and_tail.1 cfg0 dom0 2 1 (by decide) (by decide)

/-- `loopIncludes` agrees with strict inclusion of the node sets. -/
theorem loopIncludes_eq_true_iff (A B : Finset Nat) :
    loopIncludes A B = true ↔ B ⊂ A := by
  unfold loopIncludes
  rw [decide_eq_true_iff]
  constructor
  · rintro ⟨h1, h2⟩
    exact Finset.ssubset_iff_subset_ne.mpr ⟨h1, fun h => h2 h.symm⟩
  · intro h
    obtain ⟨h1, h2⟩ := Finset.ssubset_iff_subset_ne.mp h
    exact ⟨h1, fun h' => h2 h'.symm⟩

/-- `loopIncludes` is `false` exactly on non-strict-inclusions. -/
theorem loopIncludes_eq_false_iff (A B : Finset Nat) :
    loopIncludes A B = false ↔ ¬(B ⊂ A) := by
  rw [← loopIncludes_eq_true_iff]
  cases h : loopIncludes A B <;> simp

/-- C8: for loops A ⊃ B ⊃ C with a sibling D directly inside A and
unrelated to B and C, the inclusion forest built over the flat list
`[A, B, C, D]` has A as a root with children exactly B and D, B with the
single child C, and C and D as leaves; in general, a loop's parent is an
including loop with no other included loop strictly between them, and a
loop included by no loop of the list has no parent (it is a forest
root). -/
theorem loopInclusionTree_structure :
    (∀ A B C D : Finset Nat,
      C ⊂ B → B ⊂ A → D ⊂ A → ¬D ⊆ B → ¬B ⊆ D → ¬C ⊆ D → ¬D ⊆ C →
      loopParent [A, B, C, D] A = none
      ∧ loopParent [A, B, C, D] B = some A
      ∧ loopParent [A, B, C, D] C = some B
      ∧ loopParent [A, B, C, D] D = some A
      ∧ loopChildren [A, B, C, D] A = [B, D]
      ∧ loopChildren [A, B, C, D] B = [C]
      ∧ loopChildren [A, B, C, D] C = []
      ∧ loopChildren [A, B, C, D] D = [])
    ∧ (∀ (loops : List (Finset Nat)) (B A : Finset Nat),
      loopParent loops B = some A →
      loopIncludes A B = true ∧ A ∈ loops
      ∧ ∀ C ∈ loops, ¬(loopIncludes C B = true ∧ loopIncludes A C = true))
    ∧ (∀ (loops : List (Finset Nat)) (B : Finset Nat),
      (∀ A ∈ loops, loopIncludes A B = false) →
      loopParent loops B = none) := by
  refine ⟨?_, ?_, ?_⟩
  · intro A B C D hCB hBA hDA hDBs hBDs hCDs hDCs
    have hCA : C ⊂ A := hCB.trans hBA
    have hnAB : ¬A ⊆ B := hBA.not_subset
    have hnBC : ¬B ⊆ C := hCB.not_subset
    have hnAD : ¬A ⊆ D := hDA.not_subset
    have iAB : loopIncludes A B = true := (loopIncludes_eq_true_iff _ _).mpr hBA
    have iAC : loopIncludes A C = true := (loopIncludes_eq_true_iff _ _).mpr hCA
    have iAD : loopIncludes A D = true := (loopIncludes_eq_true_iff _ _).mpr hDA
    have iBC : loopIncludes B C = true := (loopIncludes_eq_true_iff _ _).mpr hCB
    have iAA : loopIncludes A A = false :=
      (loopIncludes_eq_false_iff _ _).mpr (fun h => ssubset_irrefl A h)
    have iBB : loopIncludes B B = false :=
      (loopIncludes_eq_false_iff _ _).mpr (fun h => ssubset_irrefl B h)
    have iCC : loopIncludes C C = false :=
      (loopIncludes_eq_false_iff _ _).mpr (fun h => ssubset_irrefl C h)
    have iDD : loopIncludes D D = false :=
      (loopIncludes_eq_false_iff _ _).mpr (fun h => ssubset_irrefl D h)
    have iBA : loopIncludes B A = false :=
      (loopIncludes_eq_false_iff _ _).mpr (fun h => hnAB h.subset)
    have iCA : loopIncludes C A = false :=
      (loopIncludes_eq_false_iff _ _).mpr (fun h => hnAB (h.subset.trans hCB.subset))
    have iDA : loopIncludes D A = false :=
      (loopIncludes_eq_false_iff _ _).mpr (fun h => hnAD h.subset)
    have iCB : loopIncludes C B = false :=
      (loopIncludes_eq_false_iff _ _).mpr (fun h => hnBC h.subset)
    have iBD : loopIncludes B D = false :=
      (loopIncludes_eq_false_iff _ _).mpr (fun h => hDBs h.subset)
    have iDB : loopIncludes D B = false :=
      (loopIncludes_eq_false_iff _ _).mpr (fun h => hBDs h.subset)
    have iCD : loopIncludes C D = false :=
      (loopIncludes_eq_false_iff _ _).mpr (fun h => hDCs h.subset)
    have iDC : loopIncludes D C = false :=
      (loopIncludes_eq_false_iff _ _).mpr (fun h => hCDs h.subset)
    have hBneA : B ≠ A := (Finset.ssubset_iff_subset_ne.mp hBA).2
    have hAneB : A ≠ B := hBneA.symm
    have hCneA : C ≠ A := (Finset.ssubset_iff_subset_ne.mp hCA).2
    have hAneC : A ≠ C := hCneA.symm
    have hDneA : D ≠ A := (Finset.ssubset_iff_subset_ne.mp hDA).2
    have hAneD : A ≠ D := hDneA.symm
    have hCneB : C ≠ B := (Finset.ssubset_iff_subset_ne.mp hCB).2
    have hBneC : B ≠ C := hCneB.symm
    have hBneD : B ≠ D := fun h => hBDs (h ▸ Finset.Subset.refl B)
    have hCneD : C ≠ D := fun h => hCDs (h ▸ Finset.Subset.refl C)
    have pA : loopParent [A, B, C, D] A = none := by
      simp [loopParent, iAA, iBA, iCA, iDA]
    have pB : loopParent [A, B, C, D] B = some A := by
      simp [loopParent, iAB, iBB, iCB, iDB, iAA]
    have pC : loopParent [A, B, C, D] C = some B := by
      simp [loopParent, iAC, iBC, iCC, iDC, iAA, iAB, iBA, iBB]
    have pD : loopParent [A, B, C, D] D = some A := by
      simp [loopParent, iAD, iBD, iCD, iDD, iAA]
    refine ⟨pA, pB, pC, pD, ?_, ?_, ?_, ?_⟩
    · simp [loopChildren, pA, pB, pC, pD, hBneA, hAneB]
    · simp [loopChildren, pA, pB, pC, pD, hAneB, hBneA]
    · simp [loopChildren, pA, pB, pC, pD, hAneC, hBneC]
    · simp [loopChildren, pA, pB, pC, pD, hAneD, hBneD]
  · intro loops B A h
    unfold loopParent at h
    cases hf : (loops.filter fun X => loopIncludes X B).filter
        (fun X => (loops.filter fun Y => loopIncludes Y B).all fun C => !(loopIncludes X C)) with
    | nil =>
      rw [hf] at h
      exact Option.noConfusion (h : (Option.none : Option (Finset Nat)) = some A)
    | cons A0 t =>
      rw [hf] at h
      have hA0 : A0 = A := Option.some.inj (h : some A0 = some A)
      subst hA0
      have hmem : A0 ∈ (loops.filter fun X => loopIncludes X B).filter
          (fun X => (loops.filter fun Y => loopIncludes Y B).all fun C => !(loopIncludes X C)) := by
        rw [hf]; exact List.mem_cons_self _ _
      have h1 := List.mem_filter.mp hmem
      have h2 := List.mem_filter.mp h1.1
      refine ⟨h2.2, h2.1, ?_⟩
      intro C hC hcontra
      have hCmem : C ∈ loops.filter fun Y => loopIncludes Y B :=
        List.mem_filter.mpr ⟨hC, hcontra.1⟩
      have hall := List.all_eq_true.mp h1.2 C hCmem
      rw [hcontra.2] at hall
      cases hall
  · intro loops B h
    have hf : (loops.filter fun X => loopIncludes X B) = [] := by
      rw [List.filter_eq_nil_iff]
      intro X hX
      simp [h X hX]
    unfold loopParent
    rw [hf]
    rfl

/-- Witness for C8: with A the node set 0..3, B the set of 0 and 1, C the
singleton 0 and D the singleton 2, B's parent is A, C's parent is B and A's
children are B and D. -/
theorem loopInclusionTree_structure_witness :
    loopParent [({0, 1, 2, 3} : Finset Nat), {0, 1}, {0}, {2}] {0, 1} = some {0, 1, 2, 3}
    ∧ loopParent [({0, 1, 2, 3} : Finset Nat), {0, 1}, {0}, {2}] {0} = some {0, 1}
    ∧ loopChildren [({0, 1, 2, 3} : Finset Nat), {0, 1}, {0}, {2}] {0, 1, 2, 3}
      = [{0, 1}, {2}] :=
  ⟨(loopInclusionTree_structure.1 {0, 1, 2, 3} {0, 1} {0} {2} (by decide) (by decide)
      (by decide) (by decide) (by decide) (by decide) (by decide)).2.1,
   (loopInclusionTree_structure.1 {0, 1, 2, 3} {0, 1} {0} {2} (by decide) (by decide)
      (by decide) (by decide) (by decide) (by decide) (by decide)).2.2.1,
   (loopInclusionTree_structure.1 {0, 1, 2, 3} {0, 1} {0} {2} (by decide) (by decide)
      (by decide) (by decide) (by decide) (by decide) (by decide)).2.2.2.2.1⟩
